import Mathlib

/-!
# Verification of the todo-application client and service contracts

Shallow embedding of the repository's HTTP client
(`frontend/src/utils/api.ts`) and of the backend service operations.
The backend Python sources are not part of the available source tree;
their operations are modelled from the specification (each such
definition is marked `Modelled from the spec:`).  The client code is
embedded directly from `api.ts`.
-/

namespace TodoApp

/-! ## Client-side model, from `frontend/src/utils/api.ts` -/

/-- The two localStorage slots the client uses
(`access_token`, `refresh_token`). -/
structure ClientStorage where
  access_token : Option String
  refresh_token : Option String
deriving DecidableEq

/-- The part of an axios request config the interceptors touch:
the `Authorization` header and the `_retry` marker. -/
structure ReqConfig where
  authorization : Option String
  retryFlag : Bool
deriving DecidableEq

/-- An axios rejection: an HTTP error response with a status, a network
failure with no response, or a thrown JS `Error`. -/
inductive AxiosError where
  | httpError (status : Nat)
  | networkError
  | jsError (msg : String)
deriving DecidableEq

/-- `error.response?.status`: present only for HTTP error responses. -/
def AxiosError.statusOf : AxiosError → Option Nat
  | .httpError s => some s
  | .networkError => none
  | .jsError _ => none

/-- The body of a successful `POST /api/v1/refresh` response:
`access_token` always, `refresh_token` optionally. -/
structure RefreshData where
  access_token : String
  refresh_token : Option String
deriving DecidableEq

/-- What the response-error interceptor decides to do:
reject with an error, or re-issue the original request. -/
inductive InterceptorAction where
  | reject (err : AxiosError)
  | retryRequest (cfg : ReqConfig)
deriving DecidableEq

/-- Result of one run of the response-error interceptor: the storage
afterwards, the action taken, how many refresh calls were issued, and
whether the browser was redirected to the login page. -/
structure InterceptorResult where
  storage : ClientStorage
  action : InterceptorAction
  refreshCalls : Nat
  redirectedToLogin : Bool
deriving DecidableEq

/-- The request interceptor (`api.ts` lines 21-30): reads
`access_token` from localStorage and, when present, sets the
`Authorization` header to `Bearer <token>`; otherwise leaves the
config unchanged. -/
def requestInterceptor (st : ClientStorage) (config : ReqConfig) : ReqConfig :=
  match st.access_token with
  | some token => { config with authorization := some ("Bearer " ++ token) }
  | none => config

/-- The response-error interceptor (`api.ts` lines 33-69).
`refreshSrv` abstracts the `POST /api/v1/refresh` call: it either
returns the response data or rejects with an error.
On a 401 whose request has not been retried yet, the `_retry` flag is
set, the stored refresh token is read (its absence throws), the refresh
endpoint is called, on success the new tokens are stored and the
original request is re-issued with the new `Authorization` header; any
failure in that block removes both stored tokens and redirects to the
login page.  Every other error is rejected unchanged. -/
def responseErrorInterceptor (refreshSrv : String → Except AxiosError RefreshData)
    (st : ClientStorage) (originalRequest : ReqConfig) (error : AxiosError) :
    InterceptorResult :=
  if error.statusOf = some 401 ∧ originalRequest.retryFlag = false then
    match st.refresh_token with
    | none =>
      { storage := { access_token := none, refresh_token := none },
        action := .reject (.jsError ("No refresh token available")),
        refreshCalls := 0,
        redirectedToLogin := true }
    | some refreshToken =>
      match refreshSrv refreshToken with
      | .error refreshError =>
        { storage := { access_token := none, refresh_token := none },
          action := .reject refreshError,
          refreshCalls := 1,
          redirectedToLogin := true }
      | .ok data =>
        { storage :=
            { access_token := some data.access_token,
              refresh_token :=
                match data.refresh_token with
                | some r => some r
                | none => st.refresh_token },
          action := .retryRequest
            { authorization := some ("Bearer " ++ data.access_token),
              retryFlag := true },
          refreshCalls := 1,
          redirectedToLogin := false }
  else
    { storage := st, action := .reject error, refreshCalls := 0,
      redirectedToLogin := false }

/-- Outcome of one logical client operation. -/
inductive ReqOutcome where
  | ok (resp : Nat)
  | err (e : AxiosError)
deriving DecidableEq

/-- Result of driving one logical client operation to completion:
final storage, outcome, total request attempts sent to the server, and
total refresh calls issued. -/
structure RunResult where
  storage : ClientStorage
  outcome : ReqOutcome
  attempts : Nat
  refreshCalls : Nat
deriving DecidableEq

/-- Drives one logical client operation through the axios instance:
each attempt passes through the request interceptor, is answered by the
abstract `server`, and on rejection passes through the response-error
interceptor, whose `retryRequest` action re-enters the instance (the
recursion).  `fuel` bounds the recursion so that the definition is
total; the theorems show two units of fuel always suffice. -/
def runRequest (server : ReqConfig → Except AxiosError Nat)
    (refreshSrv : String → Except AxiosError RefreshData)
    (st : ClientStorage) (cfg : ReqConfig) : Nat → RunResult
  | 0 =>
    { storage := st, outcome := .err (.jsError ("fuel exhausted")),
      attempts := 0, refreshCalls := 0 }
  | fuel + 1 =>
    match server (requestInterceptor st cfg) with
    | .ok v =>
      { storage := st, outcome := .ok v, attempts := 1, refreshCalls := 0 }
    | .error e =>
      match responseErrorInterceptor refreshSrv st (requestInterceptor st cfg) e with
      | { storage := st2, action := .reject e2, refreshCalls := k,
          redirectedToLogin := _ } =>
        { storage := st2, outcome := .err e2, attempts := 1, refreshCalls := k }
      | { storage := st2, action := .retryRequest cfg2, refreshCalls := k,
          redirectedToLogin := _ } =>
        let rest := runRequest server refreshSrv st2 cfg2 fuel
        { storage := rest.storage, outcome := rest.outcome,
          attempts := rest.attempts + 1,
          refreshCalls := k + rest.refreshCalls }

/-! ## Backend data model

The backend Python sources (`backend/src/api/v1/*.py`) are not part of
the available source tree; only their test logs and fix notes are.  The
definitions below are therefore modelled from the specification, as
marked on each. -/

/-- A user record as stored (spec 3: identifier, normalized email,
password hash, display names, active flag). -/
structure User where
  id : Nat
  email : String
  hashed_password : String
  first_name : Option String
  last_name : Option String
  is_active : Bool
deriving DecidableEq

/-- The public projection of a user: every field except the password
hash.  Response payloads for user data are built only through
`toPublicUser`. -/
structure UserResponse where
  id : Nat
  email : String
  first_name : Option String
  last_name : Option String
  is_active : Bool
deriving DecidableEq

/-- Serializes a user into the safe response shape (the fix on branch
fix/put-me-hashed-password-leak: responses carry public fields only). -/
def toPublicUser (u : User) : UserResponse :=
  { id := u.id, email := u.email, first_name := u.first_name,
    last_name := u.last_name, is_active := u.is_active }

/-- Drops the leading whitespace characters of a character list. -/
def dropLeadingSpaces : List Char → List Char
  | [] => []
  | c :: cs => if c.isWhitespace then dropLeadingSpaces cs else c :: cs

/-- Trims whitespace from both ends of a character list. -/
def trimChars (l : List Char) : List Char :=
  dropLeadingSpaces ((dropLeadingSpaces l.reverse).reverse)

/-- Email normalization (spec 3 and glossary): trim surrounding
whitespace, then lowercase. -/
def normalizeEmail (e : String) : String :=
  String.mk ((trimChars e.data).map Char.toLower)

/-- Builds the stored user record from its parts. -/
def mkUser (nextId : Nat) (e hash : String) (fn ln : Option String) : User :=
  { id := nextId, email := e, hashed_password := hash,
    first_name := fn, last_name := ln, is_active := true }

/-- Minimum password length enforced at registration (spec 4.1; the
spec scenario accepts the 8-character password pw123456). -/
def minPasswordLength : Nat := 8

inductive RegisterError where
  | conflict
  | weakPassword
deriving DecidableEq

/-- Modelled from the spec: `register(email, password, name?)` of the
Credential & Token Service (spec 4.1); the backend module
backend/src/api/v1/auth.py is not in the source tree.  Normalizes the
email, rejects an already-registered normalized email with a conflict,
rejects short passwords, stores the salted hash produced by `hashPw`
and returns the created user's public fields only. -/
def register (hashPw : String → String) (db : List User) (nextId : Nat)
    (email password : String) (first_name last_name : Option String) :
    Except RegisterError UserResponse × List User :=
  if db.any (fun u => u.email == normalizeEmail email) then
    (.error .conflict, db)
  else if password.length < minPasswordLength then
    (.error .weakPassword, db)
  else
    (.ok (toPublicUser (mkUser nextId (normalizeEmail email) (hashPw password)
        first_name last_name)),
      db ++ [mkUser nextId (normalizeEmail email) (hashPw password)
        first_name last_name])

inductive ProfileError where
  | conflict
  | unauthorized
deriving DecidableEq

/-- A partial profile update: omitted fields are left unchanged. -/
structure ProfilePatch where
  email : Option String
  first_name : Option String
  last_name : Option String
deriving DecidableEq

/-- Modelled from the spec: `GET /me` of backend/src/api/v1/users.py
(not in the source tree) returns the authenticated user's public
fields only. -/
def get_current_user_profile (u : User) : UserResponse := toPublicUser u

/-- Modelled from the spec: `PUT /me` of backend/src/api/v1/users.py
(not in the source tree; its fix notes are src/unnamed/part_001).
Normalizes a changed email, rejects with a conflict when another
account holds it, applies the partial update and returns the same safe
response shape as `GET /me`. -/
def update_current_user_profile (db : List User) (uid : Nat) (p : ProfilePatch) :
    Except ProfileError UserResponse × List User :=
  match db.find? (fun x => x.id == uid) with
  | none => (.error .unauthorized, db)
  | some u =>
    let newEmail :=
      match p.email with
      | some e => normalizeEmail e
      | none => u.email
    if newEmail != u.email && db.any (fun x => x.email == newEmail) then
      (.error .conflict, db)
    else
      let u2 : User :=
        { u with
          email := newEmail,
          first_name :=
            match p.first_name with
            | some f => some f
            | none => u.first_name,
          last_name :=
            match p.last_name with
            | some l => some l
            | none => u.last_name }
      (.ok (toPublicUser u2), db.map (fun x => if x.id == uid then u2 else x))

/-- Replaces every stored password hash according to `f`; used to state
that responses are insensitive to the stored hashes. -/
def setHashes (f : Nat → String) (db : List User) : List User :=
  db.map (fun u => { u with hashed_password := f u.id })

/-- A password-reset token row (table password_reset_tokens):
single-use token tied to a user and an expiry. -/
structure PasswordResetToken where
  token : String
  user_id : Nat
  expires_at : Nat
  used : Bool
deriving DecidableEq

inductive ResetError where
  | invalidToken
  | alreadyUsed
  | expired
deriving DecidableEq

/-- Modelled from the spec: redemption of a password-reset token by
`POST /reset-password` (backend/src/api/v1/password_reset.py is not in
the source tree).  A missing, already-used or expired token is
rejected; otherwise the token is marked used and the owning user is
returned. -/
def redeemResetToken (db : List PasswordResetToken) (tok : String) (now : Nat) :
    Except ResetError (Nat × List PasswordResetToken) :=
  match db.find? (fun t => t.token == tok) with
  | none => .error .invalidToken
  | some t =>
    if t.used then .error .alreadyUsed
    else if t.expires_at ≤ now then .error .expired
    else .ok (t.user_id,
      db.map (fun x => if x.token == tok then { x with used := true } else x))

/-- A task record (spec 3): identifier, owning user, title, optional
description, completion flag, optional due date, creation time. -/
structure Task where
  id : Nat
  user_id : Nat
  title : String
  description : Option String
  is_completed : Bool
  due_date : Option Nat
  created_at : Nat
deriving DecidableEq

/-- The body of a `GET /tasks` response: the page of tasks and the
reported `total` field. -/
structure TaskListResponse where
  tasks : List Task
  total : Nat
deriving DecidableEq

/-- The list filter: owner scoping plus the optional completion-state
filter. -/
def matchesFilter (uid : Nat) (completed : Option Bool) (t : Task) : Bool :=
  t.user_id == uid &&
    match completed with
    | none => true
    | some c => t.is_completed == c

/-- Modelled from the spec: the paginated `list` endpoint
(backend/src/api/v1/tasks.py is not in the source tree).  Spec 9 and
the repository's own dashboard test log record that the deployed code
fills `total` with the length of the current page
(len(current_page_tasks)), not the full filtered count; this
definition reproduces that recorded behavior. -/
def listTasks (db : List Task) (uid : Nat) (completed : Option Bool)
    (offset limit : Nat) : TaskListResponse :=
  let page := ((db.filter (matchesFilter uid completed)).drop offset).take limit
  { tasks := page, total := page.length }

/-- The total the spec requires `list` to report: the number of records
matching the filter, independent of pagination (spec 8). -/
def listTotalSpec (db : List Task) (uid : Nat) (completed : Option Bool) : Nat :=
  (db.filter (matchesFilter uid completed)).length

/-- Ownership-scoped lookup predicate: the record with this id, owned
by this caller. -/
def ownedBy (uid id : Nat) (t : Task) : Bool :=
  t.id == id && t.user_id == uid

/-- Result of a task mutation.  `forbidden` is expressible so that the
development can prove it is never produced. -/
inductive ApiResult (α : Type) where
  | ok (val : α)
  | notFound
  | forbidden
deriving DecidableEq

/-- A partial task update: omitted fields are left unchanged. -/
structure TaskPatch where
  title : Option String
  is_completed : Option Bool
  due_date : Option Nat
deriving DecidableEq

def applyPatch (t : Task) (p : TaskPatch) : Task :=
  { t with
    title :=
      match p.title with
      | some s => s
      | none => t.title,
    is_completed :=
      match p.is_completed with
      | some b => b
      | none => t.is_completed,
    due_date :=
      match p.due_date with
      | some d => some d
      | none => t.due_date }

/-- Writes the new version of the caller's record with this id in
place, leaving every other record unchanged. -/
def replaceOwned (uid id : Nat) (b : Task) : Task → Task :=
  fun u => if ownedBy uid id u then b else u

/-- Modelled from the spec: `update(id, patch)` (spec 4.3) with
ownership scoping (spec 4.2): the query is filtered by the caller's
identity, and a record that is absent or owned by another user yields
not-found. -/
def updateTask (db : List Task) (uid : Nat) (id : Nat) (p : TaskPatch) :
    ApiResult Task × List Task :=
  match db.find? (ownedBy uid id) with
  | none => (.notFound, db)
  | some t =>
    (.ok (applyPatch t p), db.map (replaceOwned uid id (applyPatch t p)))

/-- Modelled from the spec: `delete(id)` (spec 4.3) with ownership
scoping (spec 4.2). -/
def deleteTask (db : List Task) (uid : Nat) (id : Nat) :
    ApiResult Unit × List Task :=
  if db.any (ownedBy uid id) then
    (.ok (), db.filter (fun t => !ownedBy uid id t))
  else (.notFound, db)

/-- Modelled from the spec: `toggleComplete(id, completed)` (spec 4.3,
`PATCH /tasks/id/complete`): a dedicated operation that sets the
completion flag of the caller's task to the given value. -/
def toggleComplete (db : List Task) (uid : Nat) (id : Nat) (value : Bool) :
    ApiResult Task × List Task :=
  match db.find? (ownedBy uid id) with
  | none => (.notFound, db)
  | some t =>
    (.ok { t with is_completed := value },
      db.map (replaceOwned uid id { t with is_completed := value }))

/-! ## Concrete fixtures used by the witnesses -/

def sampleTask (i : Nat) : Task :=
  { id := i, user_id := 1, title := "task", description := none,
    is_completed := false, due_date := none, created_at := i }

def fiveTasks : List Task :=
  [sampleTask 1, sampleTask 2, sampleTask 3, sampleTask 4, sampleTask 5]

/-- A server that answers 401 until it sees the refreshed bearer
token. -/
def wServer : ReqConfig → Except AxiosError Nat := fun c =>
  if c.authorization == some ("Bearer " ++ "new") then .ok 7
  else .error (.httpError 401)

/-- A refresh endpoint that accepts the stored refresh token r0 and
returns a new access token with no new refresh token. -/
def wRefreshSrv : String → Except AxiosError RefreshData := fun rt =>
  if rt == "r0" then .ok { access_token := "new", refresh_token := none }
  else .error (.httpError 401)

/-- A refresh endpoint that always fails. -/
def wFailRefreshSrv : String → Except AxiosError RefreshData := fun _ =>
  .error (.httpError 401)

/-- The user created by the spec scenario registration. -/
def regUser0 : User :=
  { id := 1, email := "user@x.com", hashed_password := "pw123456",
    first_name := none, last_name := none, is_active := true }

def regDb0 : List User := [regUser0]

/-- A fresh reset token for user 7 expiring at time 100. -/
def resetTok0 : PasswordResetToken :=
  { token := "tk", user_id := 7, expires_at := 100, used := false }

def resetDb0 : List PasswordResetToken := [resetTok0]

/-- The same token store after one successful redemption. -/
def resetDb1 : List PasswordResetToken :=
  [{ token := "tk", user_id := 7, expires_at := 100, used := true }]

/-- A task record owned by user 2, visible to nobody else. -/
def othersTask0 : Task :=
  { id := 5, user_id := 2, title := "x", description := none,
    is_completed := false, due_date := none, created_at := 0 }

def emptyPatch : TaskPatch :=
  { title := none, is_completed := none, due_date := none }

end TodoApp

namespace TodoApp

theorem requestInterceptor_retryFlag (st : ClientStorage) (cfg : ReqConfig) :
    (requestInterceptor st cfg).retryFlag = cfg.retryFlag := by
  unfold requestInterceptor
  cases st.access_token <;> rfl

theorem interceptor_refreshCalls_le_one
    (refreshSrv : String → Except AxiosError RefreshData)
    (st : ClientStorage) (cfg : ReqConfig) (e : AxiosError) :
    (responseErrorInterceptor refreshSrv st cfg e).refreshCalls ≤ 1 := by
  unfold responseErrorInterceptor
  split
  · split
    · exact Nat.zero_le 1
    · split
      · exact Nat.le_refl 1
      · exact Nat.le_refl 1
  · exact Nat.zero_le 1

theorem interceptor_no_retry_of_flag
    (refreshSrv : String → Except AxiosError RefreshData)
    (st : ClientStorage) (cfg : ReqConfig) (e : AxiosError)
    (h : cfg.retryFlag = true) :
    responseErrorInterceptor refreshSrv st cfg e =
      { storage := st, action := .reject e, refreshCalls := 0,
        redirectedToLogin := false } := by
  unfold responseErrorInterceptor
  rw [if_neg]
  intro hc
  rw [h] at hc
  exact Bool.noConfusion hc.2

theorem interceptor_retry_flag_true
    (refreshSrv : String → Except AxiosError RefreshData)
    (st : ClientStorage) (cfg : ReqConfig) (e : AxiosError) (cfg2 : ReqConfig)
    (h : (responseErrorInterceptor refreshSrv st cfg e).action = .retryRequest cfg2) :
    cfg2.retryFlag = true := by
  unfold responseErrorInterceptor at h
  split at h
  · split at h
    · exact absurd h (by simp)
    · split at h
      · exact absurd h (by simp)
      · simp at h
        rw [← h]
  · exact absurd h (by simp)

theorem interceptor_401_refresh_fail
    (refreshSrv : String → Except AxiosError RefreshData)
    (st : ClientStorage) (cfg : ReqConfig) (e : AxiosError)
    (rt : String) (err : AxiosError)
    (h401 : e.statusOf = some 401) (hflag : cfg.retryFlag = false)
    (hrt : st.refresh_token = some rt) (hres : refreshSrv rt = .error err) :
    responseErrorInterceptor refreshSrv st cfg e =
      { storage := { access_token := none, refresh_token := none },
        action := .reject err, refreshCalls := 1,
        redirectedToLogin := true } := by
  simp [responseErrorInterceptor, h401, hflag, hrt, hres]

theorem interceptor_401_refresh_ok
    (refreshSrv : String → Except AxiosError RefreshData)
    (st : ClientStorage) (cfg : ReqConfig) (e : AxiosError)
    (rt : String) (data : RefreshData)
    (h401 : e.statusOf = some 401) (hflag : cfg.retryFlag = false)
    (hrt : st.refresh_token = some rt) (hres : refreshSrv rt = .ok data) :
    responseErrorInterceptor refreshSrv st cfg e =
      { storage :=
          { access_token := some data.access_token,
            refresh_token :=
              match data.refresh_token with
              | some r => some r
              | none => st.refresh_token },
        action := .retryRequest
          { authorization := some ("Bearer " ++ data.access_token),
            retryFlag := true },
        refreshCalls := 1, redirectedToLogin := false } := by
  simp [responseErrorInterceptor, h401, hflag, hrt, hres]

theorem runRequest_flag_true (server : ReqConfig → Except AxiosError Nat)
    (refreshSrv : String → Except AxiosError RefreshData)
    (st : ClientStorage) (cfg : ReqConfig) (fuel : Nat)
    (h : cfg.retryFlag = true) :
    runRequest server refreshSrv st cfg (fuel + 1) =
      match server (requestInterceptor st cfg) with
      | .ok v =>
        { storage := st, outcome := .ok v, attempts := 1, refreshCalls := 0 }
      | .error e =>
        { storage := st, outcome := .err e, attempts := 1, refreshCalls := 0 } := by
  have hflag : (requestInterceptor st cfg).retryFlag = true := by
    rw [requestInterceptor_retryFlag]; exact h
  unfold runRequest
  cases hs : server (requestInterceptor st cfg) with
  | ok v => rfl
  | error e =>
    dsimp only
    rw [interceptor_no_retry_of_flag refreshSrv st _ e hflag]

theorem runRequest_fuel_irrelevant (server : ReqConfig → Except AxiosError Nat)
    (refreshSrv : String → Except AxiosError RefreshData)
    (st : ClientStorage) (cfg : ReqConfig) (m : Nat) :
    runRequest server refreshSrv st cfg (m + 1 + 1) =
      runRequest server refreshSrv st cfg 2 := by
  show runRequest server refreshSrv st cfg (m + 1 + 1) =
    runRequest server refreshSrv st cfg (0 + 1 + 1)
  unfold runRequest
  cases hs : server (requestInterceptor st cfg) with
  | ok v => rfl
  | error e =>
    dsimp only
    rcases hres : responseErrorInterceptor refreshSrv st (requestInterceptor st cfg) e
      with ⟨st2, act, k, rd⟩
    cases act with
    | reject e2 => rfl
    | retryRequest cfg2 =>
      have hflag : cfg2.retryFlag = true :=
        interceptor_retry_flag_true refreshSrv st _ e cfg2 (by rw [hres])
      dsimp only
      rw [runRequest_flag_true server refreshSrv st2 cfg2 m hflag,
          runRequest_flag_true server refreshSrv st2 cfg2 0 hflag]

theorem runRequest_attempts_bound (server : ReqConfig → Except AxiosError Nat)
    (refreshSrv : String → Except AxiosError RefreshData)
    (st : ClientStorage) (cfg : ReqConfig) (fuel : Nat) :
    (runRequest server refreshSrv st cfg fuel).attempts ≤ 2 ∧
      (runRequest server refreshSrv st cfg fuel).refreshCalls ≤ 1 := by
  cases fuel with
  | zero => exact ⟨by simp [runRequest], by simp [runRequest]⟩
  | succ n =>
    unfold runRequest
    cases hs : server (requestInterceptor st cfg) with
    | ok v => exact ⟨by simp, by simp⟩
    | error e =>
      dsimp only
      rcases hres : responseErrorInterceptor refreshSrv st (requestInterceptor st cfg) e
        with ⟨st2, act, k, rd⟩
      have hk : k ≤ 1 := by
        have hle := interceptor_refreshCalls_le_one refreshSrv st (requestInterceptor st cfg) e
        rw [hres] at hle
        exact hle
      cases act with
      | reject e2 => exact ⟨by simp, by simpa using hk⟩
      | retryRequest cfg2 =>
        have hflag : cfg2.retryFlag = true :=
          interceptor_retry_flag_true refreshSrv st _ e cfg2 (by rw [hres])
        dsimp only
        cases n with
        | zero =>
          constructor
          · simp [runRequest]
          · simpa [runRequest] using hk
        | succ n2 =>
          rw [runRequest_flag_true server refreshSrv st2 cfg2 n2 hflag]
          cases hs2 : server (requestInterceptor st2 cfg2) with
          | ok v => exact ⟨by simp, by simpa using hk⟩
          | error e2 => exact ⟨by simp, by simpa using hk⟩

/-- C2: on an authentication failure the client performs at most one
refresh-and-retry cycle: at most two request attempts and at most one
refresh call in any execution; the result is already reached with two
units of fuel (no unbounded retry loop); on refresh failure both
stored tokens are removed and the refresh error is propagated; on
refresh success the original request is retried exactly once. -/
theorem client_single_refresh_retry_cycle
    (server : ReqConfig → Except AxiosError Nat)
    (refreshSrv : String → Except AxiosError RefreshData)
    (st : ClientStorage) (cfg : ReqConfig)
    (fuel : Nat) (hflag : cfg.retryFlag = false) (hfuel : 2 ≤ fuel) :
    (runRequest server refreshSrv st cfg fuel).attempts ≤ 2 ∧
      (runRequest server refreshSrv st cfg fuel).refreshCalls ≤ 1 ∧
      runRequest server refreshSrv st cfg fuel =
        runRequest server refreshSrv st cfg 2 ∧
      (∀ e rt err, server (requestInterceptor st cfg) = .error e →
        e.statusOf = some 401 → st.refresh_token = some rt →
        refreshSrv rt = .error err →
        (runRequest server refreshSrv st cfg fuel).storage =
            { access_token := none, refresh_token := none } ∧
          (runRequest server refreshSrv st cfg fuel).outcome = .err err) ∧
      (∀ e rt data, server (requestInterceptor st cfg) = .error e →
        e.statusOf = some 401 → st.refresh_token = some rt →
        refreshSrv rt = .ok data →
        (runRequest server refreshSrv st cfg fuel).attempts = 2 ∧
          (runRequest server refreshSrv st cfg fuel).refreshCalls = 1) := by
  obtain ⟨m, rfl⟩ : ∃ m, fuel = m + 1 + 1 := ⟨fuel - 2, by omega⟩
  have hreqflag : (requestInterceptor st cfg).retryFlag = false := by
    rw [requestInterceptor_retryFlag]; exact hflag
  refine ⟨(runRequest_attempts_bound server refreshSrv st cfg _).1,
    (runRequest_attempts_bound server refreshSrv st cfg _).2,
    runRequest_fuel_irrelevant server refreshSrv st cfg m, ?_, ?_⟩
  · intro e rt err hs h401 hrt hres
    unfold runRequest
    rw [hs]
    dsimp only
    rw [interceptor_401_refresh_fail refreshSrv st _ e rt err h401 hreqflag hrt hres]
    exact ⟨rfl, rfl⟩
  · intro e rt data hs h401 hrt hres
    unfold runRequest
    rw [hs]
    dsimp only
    rw [interceptor_401_refresh_ok refreshSrv st _ e rt data h401 hreqflag hrt hres]
    dsimp only
    rw [runRequest_flag_true server refreshSrv _ _ m rfl]
    cases hs2 : server (requestInterceptor
        { access_token := some data.access_token,
          refresh_token :=
            match data.refresh_token with
            | some r => some r
            | none => st.refresh_token }
        { authorization := some ("Bearer " ++ data.access_token),
          retryFlag := true }) with
    | ok v => exact ⟨rfl, rfl⟩
    | error e2 => exact ⟨rfl, rfl⟩

theorem client_single_refresh_retry_cycle_witness :
    (({ authorization := none, retryFlag := false } : ReqConfig).retryFlag = false ∧
        2 ≤ 5) ∧
      (runRequest wServer wRefreshSrv
          { access_token := some ("old"), refresh_token := some ("r0") }
          { authorization := none, retryFlag := false } 5).attempts ≤ 2 := by
  refine ⟨⟨rfl, by omega⟩, ?_⟩
  exact (client_single_refresh_retry_cycle wServer wRefreshSrv
    { access_token := some ("old"), refresh_token := some ("r0") }
    { authorization := none, retryFlag := false } 5 rfl (by omega)).1

/-- C8: the request interceptor attaches the current access token as an
Authorization Bearer header to every outbound request. -/
theorem request_attaches_bearer_token (st : ClientStorage) (cfg : ReqConfig)
    (token : String) (h : st.access_token = some token) :
    (requestInterceptor st cfg).authorization = some ("Bearer " ++ token) := by
  unfold requestInterceptor
  rw [h]

theorem request_attaches_bearer_token_witness :
    ({ access_token := some ("tok"), refresh_token := none } :
        ClientStorage).access_token = some ("tok") ∧
      (requestInterceptor { access_token := some ("tok"), refresh_token := none }
          { authorization := none, retryFlag := false }).authorization =
        some ("Bearer " ++ "tok") :=
  ⟨rfl, request_attaches_bearer_token _ _ "tok" rfl⟩

/-- C9: the response interceptor refreshes only on a 401 whose request
has not been retried; every other failure is rejected unchanged, with
no refresh call and no change to the stored tokens. -/
theorem non_401_rejected_unchanged
    (refreshSrv : String → Except AxiosError RefreshData)
    (st : ClientStorage) (cfg : ReqConfig) (error : AxiosError)
    (h : ¬(error.statusOf = some 401 ∧ cfg.retryFlag = false)) :
    responseErrorInterceptor refreshSrv st cfg error =
      { storage := st, action := .reject error, refreshCalls := 0,
        redirectedToLogin := false } := by
  unfold responseErrorInterceptor
  rw [if_neg h]

theorem non_401_rejected_unchanged_witness :
    ¬((AxiosError.httpError 500).statusOf = some 401 ∧
        ({ authorization := none, retryFlag := false } : ReqConfig).retryFlag = false) ∧
      responseErrorInterceptor wFailRefreshSrv
          { access_token := some ("a"), refresh_token := some ("r") }
          { authorization := none, retryFlag := false } (.httpError 500) =
        { storage := { access_token := some ("a"), refresh_token := some ("r") },
          action := .reject (.httpError 500), refreshCalls := 0,
          redirectedToLogin := false } :=
  ⟨by decide,
   non_401_rejected_unchanged wFailRefreshSrv _ _ _ (by decide)⟩

/-- C10: when a successful refresh response carries no new refresh
token, the stored refresh token is left unchanged and only the access
token entry is overwritten. -/
theorem refresh_keeps_stored_refresh_token
    (refreshSrv : String → Except AxiosError RefreshData)
    (st : ClientStorage) (cfg : ReqConfig) (error : AxiosError)
    (rt : String) (data : RefreshData)
    (h401 : error.statusOf = some 401) (hretry : cfg.retryFlag = false)
    (hrt : st.refresh_token = some rt) (hok : refreshSrv rt = .ok data)
    (hnone : data.refresh_token = none) :
    (responseErrorInterceptor refreshSrv st cfg error).storage.refresh_token =
        st.refresh_token ∧
      (responseErrorInterceptor refreshSrv st cfg error).storage.access_token =
        some data.access_token := by
  unfold responseErrorInterceptor
  rw [if_pos ⟨h401, hretry⟩]
  simp [hrt, hok, hnone]

theorem refresh_keeps_stored_refresh_token_witness :
    (AxiosError.httpError 401).statusOf = some 401 ∧
      (responseErrorInterceptor wRefreshSrv
          { access_token := some ("old"), refresh_token := some ("r0") }
          { authorization := none, retryFlag := false }
          (.httpError 401)).storage.refresh_token = some ("r0") := by
  refine ⟨rfl, ?_⟩
  have h := refresh_keeps_stored_refresh_token wRefreshSrv
    { access_token := some ("old"), refresh_token := some ("r0") }
    { authorization := none, retryFlag := false }
    (.httpError 401) "r0" { access_token := "new", refresh_token := none }
    rfl rfl rfl (by simp [wRefreshSrv]) rfl
  exact h.1.trans rfl

/-- C1: evaluation at the failing input recorded by the repository: with
five tasks matching the filter and limit 2, the list endpoint as
deployed reports total 2 (the length of the current page), while the
number of records matching the filter - the total the property
requires - is 5. -/
theorem listTasks_total_echoes_page_length :
    (listTasks fiveTasks 1 none 0 2).total = 2 ∧
      listTotalSpec fiveTasks 1 none = 5 ∧
      (listTasks fiveTasks 1 none 0 2).total ≠ listTotalSpec fiveTasks 1 none := by
  refine ⟨rfl, rfl, ?_⟩
  decide

/-- C3: an update or delete of a task id owned by a different user is
answered not-found, exactly as when no record with that id exists, so
the two situations are indistinguishable to the caller; a forbidden
response is never produced by either operation. -/
theorem crossUser_update_delete_not_found (db : List Task) (uid id : Nat)
    (p : TaskPatch) (other : Task)
    (hid : other.id = id) (howner : other.user_id ≠ uid)
    (habsent : ∀ t ∈ db, t.id ≠ id) :
    (updateTask (db ++ [other]) uid id p).1 = .notFound ∧
      (updateTask db uid id p).1 = .notFound ∧
      (updateTask (db ++ [other]) uid id p).1 = (updateTask db uid id p).1 ∧
      (deleteTask (db ++ [other]) uid id).1 = .notFound ∧
      (deleteTask db uid id).1 = .notFound ∧
      (deleteTask (db ++ [other]) uid id).1 = (deleteTask db uid id).1 ∧
      (∀ db2 : List Task, (updateTask db2 uid id p).1 ≠ .forbidden) ∧
      (∀ db2 : List Task, (deleteTask db2 uid id).1 ≠ .forbidden) := by
  have hno : ∀ t ∈ db ++ [other], ¬ ownedBy uid id t := by
    intro t ht
    rcases List.mem_append.mp ht with h | h
    · simp only [ownedBy, Bool.and_eq_true, beq_iff_eq]
      rintro ⟨h1, _⟩
      exact habsent t h h1
    · rcases List.mem_singleton.mp h with rfl
      simp only [ownedBy, Bool.and_eq_true, beq_iff_eq]
      rintro ⟨_, h2⟩
      exact howner h2
  have hno2 : ∀ t ∈ db, ¬ ownedBy uid id t := fun t ht =>
    hno t (List.mem_append.mpr (Or.inl ht))
  have hfind1 : (db ++ [other]).find? (ownedBy uid id) = none :=
    List.find?_eq_none.mpr hno
  have hfind2 : db.find? (ownedBy uid id) = none :=
    List.find?_eq_none.mpr hno2
  have hany1 : (db ++ [other]).any (ownedBy uid id) = false :=
    List.any_eq_false.mpr hno
  have hany2 : db.any (ownedBy uid id) = false :=
    List.any_eq_false.mpr hno2
  have hu1 : (updateTask (db ++ [other]) uid id p).1 = .notFound := by
    simp [updateTask, hfind1]
  have hu2 : (updateTask db uid id p).1 = .notFound := by
    simp [updateTask, hfind2]
  have hd1 : (deleteTask (db ++ [other]) uid id).1 = .notFound := by
    simp [deleteTask, hany1]
  have hd2 : (deleteTask db uid id).1 = .notFound := by
    simp [deleteTask, hany2]
  refine ⟨hu1, hu2, hu1.trans hu2.symm, hd1, hd2, hd1.trans hd2.symm, ?_, ?_⟩
  · intro db2
    unfold updateTask
    cases hfind : db2.find? (ownedBy uid id) <;> simp
  · intro db2
    unfold deleteTask
    split <;> simp

theorem crossUser_update_delete_not_found_witness :
    (othersTask0.user_id ≠ 1 ∧ ∀ t ∈ ([] : List Task), t.id ≠ 5) ∧
      (updateTask ([] ++ [othersTask0]) 1 5 emptyPatch).1 = .notFound := by
  refine ⟨⟨by decide, by simp⟩, ?_⟩
  exact (crossUser_update_delete_not_found [] 1 5 emptyPatch othersTask0
    rfl (by decide) (by simp)).1

theorem update_profile_hash_invariant (f : Nat → String) (db : List User)
    (uid : Nat) (p : ProfilePatch) :
    (update_current_user_profile (setHashes f db) uid p).1 =
      (update_current_user_profile db uid p).1 := by
  unfold update_current_user_profile setHashes
  rw [List.find?_map]
  have hcomp : ((fun x : User => x.id == uid) ∘
      fun u => { u with hashed_password := f u.id }) =
        (fun x : User => x.id == uid) := rfl
  rw [hcomp]
  cases hfind : db.find? (fun x => x.id == uid) with
  | none => rfl
  | some u =>
    simp only [Option.map_some']
    simp only [List.any_map]
    generalize (match p.email with
      | some e => normalizeEmail e
      | none => u.email) = M
    have hfuneq : ((fun x : User => x.email == M) ∘
        (fun v => { v with hashed_password := f v.id })) =
          (fun x : User => x.email == M) := rfl
    rw [hfuneq]
    by_cases hcond : (M != u.email && db.any (fun x => x.email == M)) = true
    · rw [if_pos hcond, if_pos hcond]
    · rw [if_neg hcond, if_neg hcond]
      rfl

/-- C4: the stored password hash does not flow into any response body:
the user serializer ignores it, the profile endpoints produce
responses invariant under arbitrary replacement of every stored hash,
and the registration response does not depend on the hashing
function. -/
theorem password_hash_never_in_responses :
    (∀ (u : User) (h : String),
      toPublicUser { u with hashed_password := h } = toPublicUser u) ∧
      (∀ (u : User) (h : String),
        get_current_user_profile { u with hashed_password := h } =
          get_current_user_profile u) ∧
      (∀ (f : Nat → String) (db : List User) (uid : Nat) (p : ProfilePatch),
        (update_current_user_profile (setHashes f db) uid p).1 =
          (update_current_user_profile db uid p).1) ∧
      (∀ (hashPw1 hashPw2 : String → String) (db : List User) (nextId : Nat)
        (email password : String) (fn ln : Option String),
        (register hashPw1 db nextId email password fn ln).1 =
          (register hashPw2 db nextId email password fn ln).1) := by
  refine ⟨fun u h => rfl, fun u h => rfl, update_profile_hash_invariant, ?_⟩
  intro hashPw1 hashPw2 db nextId email password fn ln
  unfold register
  by_cases hc : db.any (fun u => u.email == normalizeEmail email)
  · simp [hc]
  · by_cases hlen : password.length < minPasswordLength
    · simp [hc, hlen]
    · simp [hc, hlen, toPublicUser, mkUser]

/-- C5: after a successful registration, registering any email variant
with the same normalized form yields a conflict and leaves the user
set unchanged; registration preserves the invariant that emails are
pairwise distinct (at most one user per normalized email). -/
theorem register_duplicate_email_conflict
    (hashPw : String → String) (db : List User) (nextId : Nat)
    (email password : String) (fn ln : Option String)
    (resp : UserResponse) (db2 : List User)
    (hreg : register hashPw db nextId email password fn ln = (.ok resp, db2)) :
    (∀ email2 password2 fn2 ln2 nextId2,
      normalizeEmail email2 = normalizeEmail email →
      register hashPw db2 nextId2 email2 password2 fn2 ln2 =
        (.error .conflict, db2)) ∧
      (List.Pairwise (fun a b => a.email ≠ b.email) db →
        List.Pairwise (fun a b => a.email ≠ b.email) db2) := by
  unfold register at hreg
  by_cases hc : db.any (fun u => u.email == normalizeEmail email)
  · rw [if_pos hc] at hreg
    exact absurd (congrArg Prod.fst hreg) (by simp)
  · rw [if_neg hc] at hreg
    by_cases hlen : password.length < minPasswordLength
    · rw [if_pos hlen] at hreg
      exact absurd (congrArg Prod.fst hreg) (by simp)
    · rw [if_neg hlen] at hreg
      have hdb2 : db2 =
          db ++ [mkUser nextId (normalizeEmail email) (hashPw password) fn ln] :=
        (congrArg Prod.snd hreg).symm
      have hnotin : ∀ a ∈ db, ¬(a.email == normalizeEmail email) := by
        rw [Bool.not_eq_true] at hc
        exact fun a ha => by
          have hne := (List.any_eq_false.mp hc) a ha
          simpa using hne
      constructor
      · intro email2 password2 fn2 ln2 nextId2 hnorm
        have hconf : (db ++ [mkUser nextId (normalizeEmail email)
            (hashPw password) fn ln]).any
              (fun u => u.email == normalizeEmail email2) = true := by
          rw [List.any_eq_true]
          exact ⟨mkUser nextId (normalizeEmail email) (hashPw password) fn ln,
            List.mem_append.mpr (Or.inr (List.mem_singleton.mpr rfl)),
            by simp [hnorm, mkUser]⟩
        unfold register
        rw [hdb2, if_pos hconf]
      · intro hpw
        rw [hdb2, List.pairwise_append]
        refine ⟨hpw, List.pairwise_singleton _ _, ?_⟩
        intro a ha b hb
        rcases List.mem_singleton.mp hb with rfl
        have hne := hnotin a ha
        simpa [mkUser] using hne

theorem register_duplicate_email_conflict_witness :
    register (fun s => s) [] 1 "user@x.com" "pw123456" none none =
        (.ok (toPublicUser regUser0), regDb0) ∧
      normalizeEmail "USER@x.com" = normalizeEmail "user@x.com" ∧
      register (fun s => s) regDb0 2 "USER@x.com" "whatever1" none none =
        (.error .conflict, regDb0) := by
  refine ⟨rfl, by decide, ?_⟩
  exact (register_duplicate_email_conflict (fun s => s) [] 1 "user@x.com"
    "pw123456" none none (toPublicUser regUser0) regDb0 rfl).1
    "USER@x.com" "whatever1" none none 2 (by decide)

/-- C6: a password-reset token redeems at most once and only before
expiry: a redemption succeeds only on an unused token strictly before
its stored expiry, and after one successful redemption every
subsequent redemption attempt of the same token fails as already
used, at any time, even before the expiry. -/
theorem reset_token_single_use_before_expiry
    (db : List PasswordResetToken) (tok : String) (now : Nat)
    (uid : Nat) (db2 : List PasswordResetToken)
    (hred : redeemResetToken db tok now = .ok (uid, db2)) :
    (∃ t, db.find? (fun x => x.token == tok) = some t ∧
      t.used = false ∧ now < t.expires_at) ∧
      (∀ now2, redeemResetToken db2 tok now2 = .error .alreadyUsed) := by
  unfold redeemResetToken at hred
  cases hfind : db.find? (fun x => x.token == tok) with
  | none =>
    rw [hfind] at hred
    exact absurd hred (by simp)
  | some t =>
    rw [hfind] at hred
    dsimp only at hred
    by_cases hused : t.used = true
    · rw [if_pos hused] at hred
      exact absurd hred (by simp)
    · rw [if_neg hused] at hred
      by_cases hexp : t.expires_at ≤ now
      · rw [if_pos hexp] at hred
        exact absurd hred (by simp)
      · rw [if_neg hexp] at hred
        have hT : t.used = false := by
          revert hused
          cases t.used <;> simp
        have hdb2 : db2 = db.map
            (fun x => if x.token == tok then { x with used := true } else x) := by
          injection hred with h3
          exact (congrArg Prod.snd h3).symm
        have httok := List.find?_some hfind
        refine ⟨⟨t, rfl, hT, Nat.lt_of_not_le hexp⟩, ?_⟩
        intro now2
        unfold redeemResetToken
        rw [hdb2, List.find?_map]
        have hpg : ((fun x : PasswordResetToken => x.token == tok) ∘
            (fun x => if x.token == tok then { x with used := true } else x)) =
              (fun x : PasswordResetToken => x.token == tok) := by
          funext x
          by_cases hx : (x.token == tok) = true
          · simp [Function.comp, hx]
          · simp [Function.comp, hx]
        rw [hpg, hfind]
        simp only [Option.map_some']
        simp [httok]

theorem reset_token_single_use_before_expiry_witness :
    redeemResetToken resetDb0 "tk" 10 = .ok (7, resetDb1) ∧
      redeemResetToken resetDb1 "tk" 20 = .error .alreadyUsed := by
  refine ⟨rfl, ?_⟩
  exact (reset_token_single_use_before_expiry resetDb0 "tk" 10 7 resetDb1 rfl).2 20

theorem find?_map_replaceOwned (uid id : Nat) (b : Task) (l : List Task)
    (a : Task) (hfind : l.find? (ownedBy uid id) = some a)
    (hb : ownedBy uid id b = true) :
    (l.map (replaceOwned uid id b)).find? (ownedBy uid id) = some b := by
  induction l with
  | nil => simp at hfind
  | cons x xs ih =>
    rw [List.map_cons]
    by_cases hx : ownedBy uid id x = true
    · have hhead : replaceOwned uid id b x = b := by
        unfold replaceOwned
        rw [if_pos hx]
      rw [hhead]
      exact List.find?_cons_of_pos _ hb
    · have hhead : replaceOwned uid id b x = x := by
        unfold replaceOwned
        rw [if_neg hx]
      rw [hhead, List.find?_cons_of_neg _ hx]
      apply ih
      rwa [List.find?_cons_of_neg _ hx] at hfind

theorem map_replaceOwned_idem (uid id : Nat) (b : Task) (l : List Task)
    (hb : ownedBy uid id b = true) :
    (l.map (replaceOwned uid id b)).map (replaceOwned uid id b) =
      l.map (replaceOwned uid id b) := by
  induction l with
  | nil => rfl
  | cons x xs ih =>
    simp only [List.map_cons, ih]
    by_cases hx : ownedBy uid id x = true
    · have hhead : replaceOwned uid id b x = b := by
        unfold replaceOwned
        rw [if_pos hx]
      have hhead2 : replaceOwned uid id b b = b := by
        unfold replaceOwned
        rw [if_pos hb]
      rw [hhead, hhead2]
    · have hhead : replaceOwned uid id b x = x := by
        unfold replaceOwned
        rw [if_neg hx]
      rw [hhead, hhead]

/-- C7: toggleComplete is idempotent: when the caller owns the task,
the first call succeeds and sets the completion flag to the given
value, the second call with the same value succeeds as well with the
same response, and the store after the second call equals the store
after the first. -/
theorem toggleComplete_idempotent (db : List Task) (uid id : Nat) (v : Bool)
    (t : Task) (hfind : db.find? (ownedBy uid id) = some t) :
    (toggleComplete db uid id v).1 = .ok { t with is_completed := v } ∧
      (toggleComplete (toggleComplete db uid id v).2 uid id v).1 =
        .ok { t with is_completed := v } ∧
      (toggleComplete (toggleComplete db uid id v).2 uid id v).2 =
        (toggleComplete db uid id v).2 ∧
      (toggleComplete db uid id v).2.find? (ownedBy uid id) =
        some { t with is_completed := v } := by
  have hpt : ownedBy uid id t = true := List.find?_some hfind
  have hpt2 : ownedBy uid id { t with is_completed := v } = true := hpt
  have hfst : (toggleComplete db uid id v).1 = .ok { t with is_completed := v } := by
    unfold toggleComplete
    rw [hfind]
  have hsnd : (toggleComplete db uid id v).2 =
      db.map (replaceOwned uid id { t with is_completed := v }) := by
    unfold toggleComplete
    rw [hfind]
  have hfind1 : (db.map (replaceOwned uid id { t with is_completed := v })).find?
      (ownedBy uid id) = some { t with is_completed := v } :=
    find?_map_replaceOwned uid id _ db t hfind hpt2
  have hcollapse : replaceOwned uid id
      { ({ t with is_completed := v } : Task) with is_completed := v } =
        replaceOwned uid id { t with is_completed := v } := rfl
  refine ⟨hfst, ?_, ?_, ?_⟩
  · rw [hsnd]
    unfold toggleComplete
    rw [hfind1]
  · rw [hsnd]
    unfold toggleComplete
    rw [hfind1]
    show (db.map (replaceOwned uid id { t with is_completed := v })).map
        (replaceOwned uid id
          { ({ t with is_completed := v } : Task) with is_completed := v }) =
      db.map (replaceOwned uid id { t with is_completed := v })
    rw [hcollapse]
    exact map_replaceOwned_idem uid id _ db hpt2
  · rw [hsnd]
    exact hfind1

theorem toggleComplete_idempotent_witness :
    [sampleTask 1].find? (ownedBy 1 1) = some (sampleTask 1) ∧
      (toggleComplete (toggleComplete [sampleTask 1] 1 1 true).2 1 1 true).2 =
        (toggleComplete [sampleTask 1] 1 1 true).2 := by
  refine ⟨rfl, ?_⟩
  exact (toggleComplete_idempotent [sampleTask 1] 1 1 true (sampleTask 1) rfl).2.2.1

end TodoApp
